import Mathlib

/-!
Verification development for the criterion-embedding-viz repository.

The definitions below are a shallow embedding of the pipeline in
`src/index.js` (the current, Wikipedia-enabled version), of the provider
adapters in `embedding-providers.js`, and of the Wikipedia enrichment cache
in `src/wikipedia-enrichment.js`.  Embedding vectors are abstracted by a
type parameter `E` (one value of `E` stands for one vector returned by a
provider); machine floats never enter any statement.  Fallible operations
(the provider `embed` call, JSON parsing, the R2 download) are modelled
with `Option`.
-/

/-- A Wikipedia article section as produced by `extractWikipediaContent`
in `wikipedia-enrichment.js`: `{ title, content, wordCount }` (the word
count plays no role in the orchestrator and is omitted). -/
structure WSection where
  title : String
  content : String
deriving DecidableEq, Repr

/-- The `movie.wikipedia` enrichment block consumed by `generateEmbeddings`
in `src/index.js`: a `found` flag, a `summary` string and an optional
`sections` array (`none` models an absent/undefined field; an empty list
models a present-but-empty array, which is truthy in JavaScript). -/
structure WikiData where
  found : Bool
  summary : String
  sections : Option (List WSection)
deriving DecidableEq, Repr

/-- One CSV row of `criterion_movies.csv` as consumed by `src/index.js`.
`title` is the source field `movie["Title (Data retrieved 2019-06-21)"]`,
`description` is `movie.Description`, `ID` is `movie.ID`, `year` is
`movie.Year` and `director` is `movie.Director`.  `wikipedia` is the
optional enrichment block attached by `enrichMovieWithWikipedia`. -/
structure Movie where
  ID : String
  title : String
  description : String
  year : String
  director : String
  wikipedia : Option WikiData
deriving DecidableEq, Repr

/-- Character-list front match: does `pat` occur at the head of `l`? -/
def matchFront : List Char → List Char → Bool
  | [], _ => true
  | _ :: _, [] => false
  | p :: ps, c :: cs => p == c && matchFront ps cs

/-- Occurrence of `pat` anywhere in `l`; models JavaScript
`String.prototype.includes`. -/
def hasSub (pat : List Char) : List Char → Bool
  | [] => matchFront pat []
  | c :: cs => matchFront pat (c :: cs) || hasSub pat cs

/-- String containment, `s.includes(pat)` in the source. -/
def strHas (s pat : String) : Bool := hasSub pat.toList s.toList

/-- The predicate of `sections.find(...)` in `generateEmbeddings`
(src/index.js lines 543-545 and 596-598):
`s.title.toLowerCase().includes('plot') || s.title.toLowerCase().includes('synopsis')`. -/
def isKeySectionTitle (s : WSection) : Bool :=
  strHas s.title.toLower "plot" || strHas s.title.toLower "synopsis"

/-- The key-section choice of `generateEmbeddings`:
`sections.find(...) || sections[0]` (a failed `find` falls back to the
first section; an empty array yields `undefined`, modelled as `none`). -/
def keySection (secs : List WSection) : Option WSection :=
  match secs.find? isKeySectionTitle with
  | some s => some s
  | none => secs.head?

/-- The guard `movie.wikipedia && movie.wikipedia.found && movie.wikipedia.sections`
used identically in the text-building phase (line 537) and the zip-back
phase (line 592) of `generateEmbeddings`, factored out once so that both
phases provably test the same condition, as they do in the source.  When
it holds it exposes the summary and the sections array. -/
def wikiContent (m : Movie) : Option (String × List WSection) :=
  match m.wikipedia with
  | some w =>
      if w.found then
        match w.sections with
        | some secs => some (w.summary, secs)
        | none => none
      else none
  | none => none

/-- The transmitted text of the chosen key section:
"`Wikipedia ${keySection.title}: ${keySection.content.substring(0, 1000)}`"
(src/index.js line 549). -/
def sectionText (ks : WSection) : String :=
  "Wikipedia " ++ ks.title ++ ": " ++ ks.content.take 1000

/-- The texts pushed for one movie by the `batch.forEach` of
`generateEmbeddings` (src/index.js lines 528-553): title, description,
then — when Wikipedia content is present — the summary text and, when a
key section exists, one section text. -/
def textsOfMovie (m : Movie) : List String :=
  m.title :: m.description ::
    (match wikiContent m with
     | some (summary, secs) =>
         ("Wikipedia Summary: " ++ summary) ::
           (match keySection secs with
            | some ks => [sectionText ks]
            | none => [])
     | none => [])

/-- The flat text list submitted for a batch: the per-movie texts in
batch order (the source builds it by successive `texts.push` calls). -/
def textsOfBatch (batch : List Movie) : List String :=
  batch.flatMap textsOfMovie

/-- A movie together with the embedding fields attached by the zip-back
phase of `generateEmbeddings` (src/index.js lines 574-608).  `none` models
an absent field (or `undefined` when the provider returned too few
embeddings). -/
structure EnrichedMovie (E : Type) where
  movie : Movie
  title_embedding : Option E
  description_embedding : Option E
  wikipedia_summary_embedding : Option E
  wikipedia_section_embedding : Option E
  wikipedia_section_title : Option String
deriving DecidableEq, Repr

/-- The zip-back of one movie: starting at running cursor `idx`
(`embeddingIndex` in the source), consume `result.embeddings[idx++]` for
the title and the description, then conditionally for the Wikipedia
summary and the key section, returning the enriched movie and the new
cursor. -/
def zipMovie {E : Type} (out : List E) (idx : Nat) (m : Movie) :
    EnrichedMovie E × Nat :=
  match wikiContent m with
  | none =>
      ({ movie := m
         title_embedding := out[idx]?
         description_embedding := out[idx + 1]?
         wikipedia_summary_embedding := none
         wikipedia_section_embedding := none
         wikipedia_section_title := none }, idx + 2)
  | some (_, secs) =>
      match keySection secs with
      | some ks =>
          ({ movie := m
             title_embedding := out[idx]?
             description_embedding := out[idx + 1]?
             wikipedia_summary_embedding := out[idx + 2]?
             wikipedia_section_embedding := out[idx + 3]?
             wikipedia_section_title := some ks.title }, idx + 4)
      | none =>
          ({ movie := m
             title_embedding := out[idx]?
             description_embedding := out[idx + 1]?
             wikipedia_summary_embedding := out[idx + 2]?
             wikipedia_section_embedding := none
             wikipedia_section_title := none }, idx + 3)

/-- The zip-back of a whole batch (`batch.forEach` at src/index.js
lines 576-608), threading the running cursor through the movies. -/
def zipBatch {E : Type} (out : List E) : Nat → List Movie → List (EnrichedMovie E)
  | _, [] => []
  | idx, m :: ms =>
      (zipMovie out idx m).1 :: zipBatch out (zipMovie out idx m).2 ms

/-- The cursor advances by exactly the number of texts the movie emitted:
the conditional branches of the text-building phase and of the zip-back
phase agree. -/
theorem zipMovie_snd {E : Type} (out : List E) (idx : Nat) (m : Movie) :
    (zipMovie out idx m).2 = idx + (textsOfMovie m).length := by
  unfold zipMovie textsOfMovie
  cases h : wikiContent m with
  | none => simp
  | some p =>
      obtain ⟨summary, secs⟩ := p
      cases hk : keySection secs <;> simp [hk]

/-- The persisted ProgressState: the accumulated `embeddings` array and
`lastProcessedIndex`, exactly the two fields `saveProgress` writes in its
default JSON branch (src/index.js lines 450-453). -/
structure PState (E : Type) where
  embeddings : List (EnrichedMovie E)
  lastProcessedIndex : Nat
deriving DecidableEq, Repr

/-- Outcome of one pipeline run: normal completion, or the halt caused by
a provider failure (`throw error` at src/index.js line 626), each carrying
the in-memory state at that point. -/
inductive RunResult (E : Type) where
  | success : PState E → RunResult E
  | failure : PState E → RunResult E
deriving DecidableEq, Repr

/-- The state a run ends in, whether it completed or halted. -/
def RunResult.state {E : Type} : RunResult E → PState E
  | .success st => st
  | .failure st => st

/-- `filterUnprocessedMovies` (src/index.js lines 460-463): keep the
movies whose `ID` is not among the IDs of the already-persisted
embeddings. -/
def filterUnprocessedMovies {E : Type} (embeddings : List (EnrichedMovie E))
    (movies : List Movie) : List Movie :=
  movies.filter (fun movie => !((embeddings.map (fun e => e.movie.ID)).contains movie.ID))

/-- `moviesToProcess.slice(i, i + BATCH_SIZE)` (src/index.js line 524). -/
def batchAt (toProcess : List Movie) (bs i : Nat) : List Movie :=
  (toProcess.drop i).take bs

/-- The batch size constant of src/index.js line 325. -/
def BATCH_SIZE : Nat := 10

/-- The batch loop of `generateEmbeddings` (src/index.js lines 519-631),
parameters: batch size `bs`, the provider call `embed` (`none` models a
thrown provider error), the filtered record list, remaining loop fuel
(the loop runs at most once per record when `bs ≥ 1`, so
`toProcess.length + 1` fuel is never exhausted), the cursor `i`
(`lastProcessedIndex`) and the accumulated `embeddings`.

Each iteration slices the batch, submits its flat text list, zips the
returned embeddings back, advances `lastProcessedIndex` to `i + bs`
(line 611: `lastProcessedIndex = i + BATCH_SIZE`), and calls
`saveProgress`; the returned list is the sequence of states passed to
`saveProgress`, in order.  On a provider failure the source saves
progress with the embeddings accumulated so far and the unchanged
`lastProcessedIndex` (which at that point equals the failing batch's
start `i`) and rethrows. -/
def processLoop {E : Type} (bs : Nat) (embed : List String → Option (List E))
    (toProcess : List Movie) :
    Nat → Nat → List (EnrichedMovie E) → List (PState E) × RunResult E
  | 0, i, acc => ([], .success ⟨acc, i⟩)
  | fuel + 1, i, acc =>
      if i < toProcess.length then
        match embed (textsOfBatch (batchAt toProcess bs i)) with
        | none => ([⟨acc, i⟩], .failure ⟨acc, i⟩)
        | some out =>
            let acc2 := acc ++ zipBatch out 0 (batchAt toProcess bs i)
            let r := processLoop bs embed toProcess fuel (i + bs) acc2
            (⟨acc2, i + bs⟩ :: r.1, r.2)
      else ([], .success ⟨acc, i⟩)

/-- `generateEmbeddings` (src/index.js lines 508-636): filter the already
processed movies out by ID, then run the batch loop with the cursor
initialised to the loaded `lastProcessedIndex` (line 520:
`let i = lastProcessedIndex`).  Returns the sequence of saved progress
states and the run outcome. -/
def generateEmbeddings {E : Type} (bs : Nat) (embed : List String → Option (List E))
    (movies : List Movie) (st : PState E) : List (PState E) × RunResult E :=
  let toProcess := filterUnprocessedMovies st.embeddings movies
  processLoop bs embed toProcess (toProcess.length + 1) st.lastProcessedIndex st.embeddings

/-- The enriched records produced by `k` consecutive successful batches
starting at cursor `i`, for a total provider `f`.  Helper used to state
what each checkpoint contains. -/
def zipsUpTo {E : Type} (f : List String → List E) (toProcess : List Movie)
    (bs : Nat) : Nat → Nat → List (EnrichedMovie E)
  | _, 0 => []
  | i, k + 1 =>
      zipBatch (f (textsOfBatch (batchAt toProcess bs i))) 0 (batchAt toProcess bs i) ++
        zipsUpTo f toProcess bs (i + bs) k

/-- The enriched movie built for one record exposes the embeddings at the
cursor positions `idx`, `idx + 1`, and conditionally `idx + 2`, `idx + 3`
of the returned embedding list. -/
theorem zipMovie_fields {E : Type} (out : List E) (idx : Nat) (m : Movie) :
    ((zipMovie out idx m).1).movie = m ∧
    ((zipMovie out idx m).1).title_embedding = out[idx]? ∧
    ((zipMovie out idx m).1).description_embedding = out[idx + 1]? ∧
    (∀ summary secs, wikiContent m = some (summary, secs) →
      ((zipMovie out idx m).1).wikipedia_summary_embedding = out[idx + 2]? ∧
      ∀ ks, keySection secs = some ks →
        ((zipMovie out idx m).1).wikipedia_section_embedding = out[idx + 3]? ∧
        ((zipMovie out idx m).1).wikipedia_section_title = some ks.title) := by
  unfold zipMovie
  cases h : wikiContent m with
  | none => simp
  | some p =>
      obtain ⟨summary, secs⟩ := p
      cases hk : keySection secs <;> simp [hk]

/-- Splitting a movie list at position `j` splits the flat text list into
the texts of the first `j` movies, the texts of movie `j`, and the rest. -/
theorem textsOfBatch_decomp (ms : List Movie) (j : Nat) (h : j < ms.length) :
    textsOfBatch ms =
      textsOfBatch (ms.take j) ++
        (textsOfMovie (ms.get ⟨j, h⟩) ++ textsOfBatch (ms.drop (j + 1))) := by
  have h2 : ms.take j ++ ms[j] :: ms.drop (j + 1) = ms := by
    rw [List.getElem_cons_drop]
    exact List.take_append_drop j ms
  conv_lhs => rw [← h2]
  simp only [textsOfBatch, List.flatMap_append, List.flatMap_cons, List.get_eq_getElem]

/-- Position of movie `j`'s title in the submitted flat text list. -/
def titlePos (ms : List Movie) (j : Nat) : Nat :=
  (textsOfBatch (ms.take j)).length

/-- Within the flat text list of a batch, the slot `titlePos ms j + k`
holds the `k`-th text of movie `j`. -/
theorem textsOfBatch_getElem (ms : List Movie) (j : Nat) (h : j < ms.length)
    (k : Nat) (hk : k < (textsOfMovie (ms.get ⟨j, h⟩)).length) :
    (textsOfBatch ms)[titlePos ms j + k]? = (textsOfMovie (ms.get ⟨j, h⟩))[k]? := by
  rw [textsOfBatch_decomp ms j h, titlePos]
  rw [List.getElem?_append_right (by omega)]
  rw [Nat.add_sub_cancel_left]
  rw [List.getElem?_append_left hk]

/-- The `j`-th entry of the zipped batch is the zip of movie `j` at the
cursor position where its texts start. -/
theorem zipBatch_getElem {E : Type} (out : List E) :
    ∀ (ms : List Movie) (j idx : Nat) (h : j < ms.length),
      (zipBatch out idx ms)[j]? =
        some ((zipMovie out (idx + (textsOfBatch (ms.take j)).length) (ms.get ⟨j, h⟩)).1) := by
  intro ms
  induction ms with
  | nil => intro j idx h; simp at h
  | cons m ms ih =>
      intro j idx h
      cases j with
      | zero => simp [zipBatch, textsOfBatch]
      | succ j =>
          have hj : j < ms.length := by simpa using h
          simp only [zipBatch, List.getElem?_cons_succ]
          rw [ih j (zipMovie out idx m).2 hj, zipMovie_snd]
          have : (textsOfBatch ((m :: ms).take (j + 1))).length =
              (textsOfMovie m).length + (textsOfBatch (ms.take j)).length := by
            simp [textsOfBatch, List.take_cons]
          simp only [List.get_cons_succ, this]
          rw [Nat.add_assoc]

/-- Auxiliary: prepending keeps a nonempty list's last element. -/
theorem getLast?_cons_some {α : Type} (a : α) (l : List α) (x : α)
    (h : l.getLast? = some x) : (a :: l).getLast? = some x := by
  cases l with
  | nil => simp at h
  | cons b t => rw [List.getLast?_cons_cons]; exact h

/-- Checkpoint trace of a run whose provider calls all succeed: the `k`-th
state handed to `saveProgress` holds the initial embeddings extended by the
zip-backs of the first `k + 1` batches, and `lastProcessedIndex` equal to
the start cursor plus `(k + 1) * bs` (the source always adds the full
`BATCH_SIZE`, line 611, even when the final batch is shorter). -/
theorem processLoop_trace {E : Type} (f : List String → List E) (bs : Nat)
    (tp : List Movie) :
    ∀ (fuel i : Nat) (acc : List (EnrichedMovie E)) (k : Nat),
      k < ((processLoop bs (fun ts => some (f ts)) tp fuel i acc).1).length →
      ((processLoop bs (fun ts => some (f ts)) tp fuel i acc).1)[k]? =
        some ⟨acc ++ zipsUpTo f tp bs i (k + 1), i + (k + 1) * bs⟩ := by
  intro fuel
  induction fuel with
  | zero => intro i acc k hk; simp [processLoop] at hk
  | succ fuel ih =>
      intro i acc k hk
      by_cases hi : i < tp.length
      · simp only [processLoop] at hk ⊢
        rw [if_pos hi] at hk ⊢
        cases k with
        | zero =>
            simp [zipsUpTo]
        | succ k =>
            have hk2 : k < ((processLoop bs (fun ts => some (f ts)) tp fuel (i + bs)
                (acc ++ zipBatch (f (textsOfBatch (batchAt tp bs i))) 0 (batchAt tp bs i))).1).length := by
              simpa using hk
            rw [List.getElem?_cons_succ]
            rw [ih (i + bs) _ k hk2]
            have hz : zipsUpTo f tp bs i (k + 2) =
                zipBatch (f (textsOfBatch (batchAt tp bs i))) 0 (batchAt tp bs i) ++
                  zipsUpTo f tp bs (i + bs) (k + 1) := rfl
            have harith : i + bs + (k + 1) * bs = i + (k + 2) * bs := by ring
            rw [hz, ← List.append_assoc, harith]
      · simp only [processLoop] at hk
        rw [if_neg hi] at hk
        simp at hk

/-- Characterisation of a halted run: when the batch loop ends in
`failure st`, the failing batch is the one starting at the persisted
`lastProcessedIndex` (its `embed` call returned `none`), that index lies
within the record list and is at least the start cursor, the failure
state is the last state handed to `saveProgress`, and the persisted
embeddings are exactly what a run over only the records before the
failing batch produces — every batch before it and nothing of it. -/
theorem processLoop_failure_spec {E : Type} (bs : Nat) (hbs : 0 < bs)
    (embed : List String → Option (List E)) (tp : List Movie) :
    ∀ (fuel i : Nat) (acc : List (EnrichedMovie E)) (cps : List (PState E)) (st : PState E),
      processLoop bs embed tp fuel i acc = (cps, .failure st) →
      i ≤ st.lastProcessedIndex ∧
      st.lastProcessedIndex < tp.length ∧
      embed (textsOfBatch (batchAt tp bs st.lastProcessedIndex)) = none ∧
      cps.getLast? = some st ∧
      (processLoop bs embed (tp.take st.lastProcessedIndex) fuel i acc).2 =
        .success ⟨st.embeddings, st.lastProcessedIndex⟩ := by
  intro fuel
  induction fuel with
  | zero =>
      intro i acc cps st h
      simp only [processLoop, Prod.mk.injEq] at h
      exact RunResult.noConfusion h.2
  | succ fuel ih =>
      intro i acc cps st h
      by_cases hi : i < tp.length
      · simp only [processLoop] at h
        rw [if_pos hi] at h
        cases hemb : embed (textsOfBatch (batchAt tp bs i)) with
        | none =>
            simp only [hemb, Prod.mk.injEq, RunResult.failure.injEq] at h
            obtain ⟨hcps, hst⟩ := h
            subst hst
            refine ⟨Nat.le_refl _, hi, hemb, by simp [← hcps], ?_⟩
            have hlen : ((tp.take i).length) = i := by
              simp [List.length_take]
              omega
            simp only [processLoop, hlen]
            simp
        | some out =>
            simp only [hemb, Prod.mk.injEq] at h
            obtain ⟨hcps, hr⟩ := h
            have hpair : processLoop bs embed tp fuel (i + bs)
                (acc ++ zipBatch out 0 (batchAt tp bs i)) =
                ((processLoop bs embed tp fuel (i + bs)
                  (acc ++ zipBatch out 0 (batchAt tp bs i))).1, .failure st) := by
              rw [← hr]
            obtain ⟨h1, h2, h3, h4, h5⟩ := ih (i + bs) _ _ st hpair
            have hle : i ≤ st.lastProcessedIndex := by omega
            have hilt : i < st.lastProcessedIndex := by omega
            refine ⟨hle, h2, h3, ?_, ?_⟩
            · rw [← hcps]
              exact getLast?_cons_some _ _ _ h4
            · have hlen2 : i < (tp.take st.lastProcessedIndex).length := by
                simp [List.length_take]
                omega
              have hbatch : batchAt (tp.take st.lastProcessedIndex) bs i = batchAt tp bs i := by
                unfold batchAt
                rw [List.drop_take, List.take_take]
                have : bs ⊓ (st.lastProcessedIndex - i) = bs := by
                  simp [Nat.min_def]
                  omega
                rw [this]
              simp only [processLoop]
              rw [if_pos hlen2, hbatch, hemb]
              exact h5
      · simp only [processLoop] at h
        rw [if_neg hi] at h
        simp only [Prod.mk.injEq] at h
        exact RunResult.noConfusion h.2

/-- The provider variants of `embedding-providers.js` (factory at its
lines 339-353). -/
inductive Provider where
  | nomic
  | openai
  | lmstudio
  | cohere
deriving DecidableEq, Repr

/-- The `minTime` of the shared Bottleneck instance created in
src/index.js lines 342-344. -/
def limiterMinTime : Nat := 200

/-- One outbound HTTP request issued during a provider `embed` call, and
whether the source wraps it in `rateLimiter.schedule(...)`. -/
structure OutboundCall where
  provider : Provider
  throughLimiter : Bool
deriving DecidableEq, Repr

/-- The outbound requests of each provider's `embed(texts)` in
`embedding-providers.js`: Nomic (one POST via `this.rateLimiter.schedule`),
OpenAI (one POST via the limiter), Cohere (one POST via the limiter), and
LM Studio, which first issues a direct `testConnection` GET and then one
direct `axios.post` per input text, none of them through the limiter. -/
def embedRequests (p : Provider) (texts : List String) : List OutboundCall :=
  match p with
  | .nomic => [⟨.nomic, true⟩]
  | .openai => [⟨.openai, true⟩]
  | .cohere => [⟨.cohere, true⟩]
  | .lmstudio => ⟨.lmstudio, false⟩ :: texts.map (fun _ => ⟨.lmstudio, false⟩)

/-- The `usage` block of an `embed` result. -/
structure Usage where
  prompt_tokens : Nat
  total_tokens : Nat
deriving DecidableEq, Repr

/-- The token estimate `texts.reduce((sum, text) => sum + Math.ceil(text.length / 4), 0)`
used by the Nomic, LM Studio and Cohere adapters; for natural numbers
`Math.ceil(n / 4)` is `(n + 3) / 4`. -/
def tokenEstimate (texts : List String) : Nat :=
  texts.foldl (fun sum text => sum + (text.length + 3) / 4) 0

/-- The `usage` block each provider's `embed` returns, as a function of the
input texts and of the usage block reported by the upstream HTTP response:
Nomic, LM Studio and Cohere compute it locally from the texts
(`embedding-providers.js` lines 119-122, 254-257, 326-329), while OpenAI
passes `response.data.usage` through (line 195). -/
def embedUsage (p : Provider) (texts : List String) (upstream : Option Usage) :
    Option Usage :=
  match p with
  | .nomic => some ⟨tokenEstimate texts, tokenEstimate texts⟩
  | .lmstudio => some ⟨tokenEstimate texts, tokenEstimate texts⟩
  | .cohere => some ⟨tokenEstimate texts, tokenEstimate texts⟩
  | .openai => upstream

/-- Folding the per-text estimates equals summing them. -/
theorem tokenEstimate_eq_sum (texts : List String) :
    tokenEstimate texts = (texts.map (fun text => (text.length + 3) / 4)).sum := by
  have h : ∀ (l : List String) (a : Nat),
      l.foldl (fun sum text => sum + (text.length + 3) / 4) a =
        a + (l.map (fun text => (text.length + 3) / 4)).sum := by
    intro l
    induction l with
    | nil => intro a; simp
    | cons t ts ih =>
        intro a
        simp [List.foldl_cons, ih, Nat.add_assoc]
  simpa using h texts 0

/-- JSON values, used to model the persisted progress representations at
the level of the data they denote (the byte-level encoding and decoding of
a single value is `JSON.stringify` / `JSON.parse` of the platform and is
abstracted as the identity on values). -/
inductive Json where
  | str : String → Json
  | num : Nat → Json
  | arr : List Json → Json
  | obj : List (String × Json) → Json

/-- The ndjson branch of `saveProgress` (src/index.js lines 444-447):
`embeddings.map(e => JSON.stringify(e)).join('\n') + '\n'` — one JSON
value per line, one line per record, and no `lastProcessedIndex` field.
The file is modelled by its sequence of line values. -/
def saveProgressNdjson (embeddings : List Json) : List Json :=
  embeddings.map (fun e => e)

/-- The default json branch of `saveProgress` (src/index.js lines 450-454):
one document `{ embeddings, lastProcessedIndex }`. -/
def saveProgressJson (embeddings : List Json) (lastProcessedIndex : Nat) : Json :=
  .obj [("embeddings", .arr embeddings), ("lastProcessedIndex", .num lastProcessedIndex)]

/-- Modelled from the spec: the repository has no reader for the ndjson
format (its loader only parses the single-document form), so the
line-by-line reader of spec section 8, "writing in `ndjson` then reading
back line-by-line", is modelled here: each line's value is parsed in
order (parsing a written line recovers its value). -/
def readNdjson (lines : List Json) : List Json :=
  lines.map (fun line => line)

/-- The record sequence a reader of the single-document form obtains:
`savedData.embeddings || []` as in `loadExistingEmbeddings`
(src/index.js line 388). -/
def readJsonEmbeddings (doc : Json) : List Json :=
  match doc with
  | .obj fields =>
      match (fields.find? (fun f => f.1 == "embeddings")).map (fun f => f.2) with
      | some (Json.arr l) => l
      | _ => []
  | _ => []

/-- A parsed progress document: `savedData.embeddings` and
`savedData.lastProcessedIndex`, either possibly absent (`||` defaults in
src/index.js lines 388-389). -/
structure SavedData (A : Type) where
  embeddings : Option (List A)
  lastProcessedIndex : Option Nat
deriving DecidableEq, Repr

/-- The state `loadExistingEmbeddings` leaves the run in. -/
structure LoadedState (A : Type) where
  embeddings : List A
  lastProcessedIndex : Nat
deriving DecidableEq, Repr

/-- `loadExistingEmbeddings` (src/index.js lines 371-399), with its three
effects abstracted: `fileExists` is `fs.existsSync(EMBEDDINGS_FILE)`,
`downloadOk` the outcome of `downloadEmbeddingsFromR2` (attempted only
when the file is absent; on its failure the function logs and returns the
empty state), and `parsed` the outcome of `JSON.parse` on the file
(`none` models a parse exception, again caught and replaced by the empty
state).  Every failure path is caught in the source, so the model is a
total function. -/
def loadExistingEmbeddings (A : Type) (fileExists downloadOk : Bool)
    (parsed : Option (SavedData A)) : LoadedState A :=
  if !fileExists && !downloadOk then ⟨[], 0⟩
  else
    match parsed with
    | none => ⟨[], 0⟩
    | some savedData =>
        ⟨savedData.embeddings.getD [], savedData.lastProcessedIndex.getD 0⟩

/-- Outcome of the Wikipedia search strategies of `searchMovieWikipedia`
(wikipedia-enrichment.js lines 55-113): a verified match, a completed
search with no match, or a thrown error reaching the outer catch
(lines 115-118). -/
inductive SearchOutcome where
  | matched (articleTitle url summary searchTerm : String) (confidence : Nat)
  | noMatch
  | errored (msg : String)
deriving DecidableEq, Repr

/-- Whether the search aborted with an error instead of completing. -/
def SearchOutcome.isErrored : SearchOutcome → Bool
  | .errored _ => true
  | _ => false

/-- A value stored in (or returned from) the Wikipedia cache: the
`matchData` object of wikipedia-enrichment.js lines 80-87, the
`noMatchData` object of line 108, or the uncached error result of
line 117. -/
structure WikiSearchResult where
  found : Bool
  articleTitle : Option String
  url : Option String
  summary : Option String
  searchTerm : Option String
  confidence : Option Nat
  title : Option String
  year : Option String
  director : Option String
  error : Option String
deriving DecidableEq, Repr

/-- The cache key of wikipedia-enrichment.js line 45:
"`${title}_${year}_${director}`". -/
def cacheKey (m : Movie) : String :=
  m.title ++ "_" ++ m.year ++ "_" ++ m.director

/-- Lookup in the cache object; every stored value is an object and hence
truthy, so `if (wikipediaCache[cacheKey])` hits exactly when the key is
present. -/
def cacheLookup (cache : List (String × WikiSearchResult)) (k : String) :
    Option WikiSearchResult :=
  (cache.find? (fun kv => kv.1 == k)).map (fun kv => kv.2)

/-- Property assignment `wikipediaCache[cacheKey] = v`. -/
def cacheInsert (cache : List (String × WikiSearchResult)) (k : String)
    (v : WikiSearchResult) : List (String × WikiSearchResult) :=
  (k, v) :: cache

/-- `searchMovieWikipedia` (wikipedia-enrichment.js lines 39-119), with
the network interaction abstracted into a `SearchOutcome`: on a cache hit
the cached result is returned before any Wikipedia query is issued
(lines 48-51); on a completed search both a match (lines 80-94) and a
no-match result (lines 107-113) are written to the cache under the key;
an error reaching the outer catch returns a `found:false` result without
caching it (lines 115-118).  The returned `Bool` records whether any
Wikipedia query was issued by this call. -/
def searchMovieWikipedia (cache : List (String × WikiSearchResult)) (m : Movie)
    (outcome : SearchOutcome) :
    WikiSearchResult × List (String × WikiSearchResult) × Bool :=
  match cacheLookup cache (cacheKey m) with
  | some r => (r, cache, false)
  | none =>
      match outcome with
      | .matched articleTitle url summary searchTerm confidence =>
          let matchData : WikiSearchResult :=
            { found := true
              articleTitle := some articleTitle
              url := some url
              summary := some summary
              searchTerm := some searchTerm
              confidence := some confidence
              title := none, year := none, director := none, error := none }
          (matchData, cacheInsert cache (cacheKey m) matchData, true)
      | .noMatch =>
          let noMatchData : WikiSearchResult :=
            { found := false
              articleTitle := none, url := none, summary := none
              searchTerm := none, confidence := none
              title := some m.title, year := some m.year
              director := some m.director, error := none }
          (noMatchData, cacheInsert cache (cacheKey m) noMatchData, true)
      | .errored msg =>
          ({ found := false
             articleTitle := none, url := none, summary := none
             searchTerm := none, confidence := none
             title := some m.title, year := some m.year
             director := some m.director, error := some msg }, cache, true)

/-- The four terminal situations of a run of `node src/index.js`. -/
inductive ExitCase where
  | fullCompletion
  | missingCredential
  | inputReadError
  | batchFailure
deriving DecidableEq, Repr

/-- Process exit codes as implemented in src/index.js: a provider
initialisation failure (missing credential or unknown provider name)
calls `process.exit(1)` (line 354); a CSV read error is caught by the
stream error handler (lines 670-673) and a batch failure by the
`try/catch` of the `end` handler (lines 665-668), both of which only log
and write usage stats, after which the event loop drains and Node exits
with the default code 0; full completion also exits 0. -/
def exitCode : ExitCase → Nat
  | .missingCredential => 1
  | .fullCompletion => 0
  | .inputReadError => 0
  | .batchFailure => 0

/-- A plain catalog record with numeric string identifier `n`. -/
def mkMovieN (n : Nat) : Movie :=
  { ID := toString n, title := "t" ++ toString n, description := "d" ++ toString n,
    year := "", director := "", wikipedia := none }

/-- A 13-record input catalog with identifiers "0" … "12". -/
def movies13 : List Movie := (List.range 13).map mkMovieN

/-- A 3-record input catalog with identifiers "0", "1", "2". -/
def movies3 : List Movie := (List.range 3).map mkMovieN

/-- A provider call that always succeeds, returning one distinct value per
submitted text. -/
def embedOkNat : List String → Option (List Nat) :=
  fun ts => some (List.range ts.length)

/-- A provider call that throws exactly on the batch containing the record
with identifier "10" (its title "t10" is in the submitted text list). -/
def embedFailOn10 : List String → Option (List Nat) :=
  fun ts => if ts.contains "t10" then none else some (List.range ts.length)

/-- A total deterministic provider used for fully successful runs. -/
def f0 : List String → List Nat := fun ts => List.range ts.length

/-- The ProgressState persisted by a fresh run over `movies13` whose
provider fails on the second batch: 10 EnrichedRecords (ids "0" … "9")
and `lastProcessedIndex = 10`. -/
def firstRunStateC1 : PState Nat :=
  ((generateEmbeddings BATCH_SIZE embedFailOn10 movies13 ⟨[], 0⟩).2).state

/-- The state after re-running the pipeline from `firstRunStateC1` with a
provider that always succeeds. -/
def reRunStateC1 : PState Nat :=
  ((generateEmbeddings BATCH_SIZE embedOkNat movies13 firstRunStateC1).2).state

/-- C1: the idempotent-resumption claim fails on the code.  Evaluated at
the failing input: 13 records, a prior run that persisted N = 10 completed
records and `lastProcessedIndex = 10`.  The re-run filters out the 10
processed identifiers *and* starts its batch loop at offset 10 of the
3-record remainder, so it embeds nothing at all (the claim requires
`total − N = 3` records), and the final persisted identifier set is
missing "10" (and "11", "12") even though the input contains it. -/
theorem resumption_double_skip_eval :
    firstRunStateC1.embeddings.length = 10 ∧
    firstRunStateC1.lastProcessedIndex = 10 ∧
    movies13.length = 13 ∧
    reRunStateC1 = firstRunStateC1 ∧
    ((movies13.map (fun m => m.ID)).contains "10") = true ∧
    ((reRunStateC1.embeddings.map (fun e => e.movie.ID)).contains "10") = false := by
  decide

/-- C2 counterexample: for 3 unprocessed records and batch size 2, the
checkpoint offsets of a fully successful fresh run are 2 and then 4 — the
second (partial, one-record) batch persists offset 4, not 3 as the claim
states, although exactly 3 records have been embedded by then. -/
theorem resume_offset_counterexample :
    ((generateEmbeddings 2 (fun ts => some (f0 ts)) movies3 (⟨[], 0⟩ : PState Nat)).1.map
        (fun c => c.lastProcessedIndex)) = [2, 4] ∧
    ((generateEmbeddings 2 (fun ts => some (f0 ts)) movies3 (⟨[], 0⟩ : PState Nat)).1.map
        (fun c => c.embeddings.length)) = [2, 3] ∧
    (4 : Nat) ≠ 3 := by
  decide

/-- C2 (amended): in a run whose provider calls all succeed, the `k`-th
state handed to `saveProgress` carries `lastProcessedIndex` equal to the
startup offset plus `(k + 1) · batchSize` — the loop always adds the full
batch size (src/index.js line 611), so the offset equals
startup + embedded-count only while batches are full and overshoots on a
final partial batch — and its embeddings are exactly the startup
embeddings followed by the zip-backs of the first `k + 1` batches (so a
checkpoint is persisted only after its batch's records are appended);
offsets along the trace are monotonically non-decreasing. -/
theorem resume_offset_checkpoint_invariant (E : Type) (f : List String → List E)
    (bs : Nat) (movies : List Movie) (st0 : PState E) (k : Nat)
    (hk : k < ((generateEmbeddings bs (fun ts => some (f ts)) movies st0).1).length) :
    ((generateEmbeddings bs (fun ts => some (f ts)) movies st0).1)[k]? =
      some ⟨st0.embeddings ++ zipsUpTo f (filterUnprocessedMovies st0.embeddings movies) bs
            st0.lastProcessedIndex (k + 1),
          st0.lastProcessedIndex + (k + 1) * bs⟩ ∧
    (∀ (k2 : Nat) (s1 s2 : PState E),
      ((generateEmbeddings bs (fun ts => some (f ts)) movies st0).1)[k]? = some s1 →
      ((generateEmbeddings bs (fun ts => some (f ts)) movies st0).1)[k2]? = some s2 →
      k ≤ k2 → s1.lastProcessedIndex ≤ s2.lastProcessedIndex) := by
  have hmain : ∀ (k3 : Nat),
      k3 < ((generateEmbeddings bs (fun ts => some (f ts)) movies st0).1).length →
      ((generateEmbeddings bs (fun ts => some (f ts)) movies st0).1)[k3]? =
        some ⟨st0.embeddings ++ zipsUpTo f (filterUnprocessedMovies st0.embeddings movies) bs
              st0.lastProcessedIndex (k3 + 1),
            st0.lastProcessedIndex + (k3 + 1) * bs⟩ := by
    intro k3 hk3
    simp only [generateEmbeddings] at hk3 ⊢
    exact processLoop_trace f bs (filterUnprocessedMovies st0.embeddings movies) _ _ _ k3 hk3
  refine ⟨hmain k hk, ?_⟩
  intro k2 s1 s2 h1 h2 hle
  have hk2 : k2 < ((generateEmbeddings bs (fun ts => some (f ts)) movies st0).1).length := by
    rcases List.getElem?_eq_some.1 h2 with ⟨hlt, _⟩
    exact hlt
  rw [hmain k hk] at h1
  rw [hmain k2 hk2] at h2
  have e1 : s1.lastProcessedIndex = st0.lastProcessedIndex + (k + 1) * bs := by
    cases h1; rfl
  have e2 : s2.lastProcessedIndex = st0.lastProcessedIndex + (k2 + 1) * bs := by
    cases h2; rfl
  rw [e1, e2]
  exact Nat.add_le_add_left (Nat.mul_le_mul_right bs (by omega)) _

/-- C2 witness: the amended invariant instantiated at the counterexample
scenario's first checkpoint (3 records, batch size 2, fresh state). -/
theorem resume_offset_checkpoint_witness :
    ((generateEmbeddings 2 (fun ts => some (f0 ts)) movies3 (⟨[], 0⟩ : PState Nat)).1)[0]? =
      some ⟨([] : List (EnrichedMovie Nat)) ++
          zipsUpTo f0 (filterUnprocessedMovies ([] : List (EnrichedMovie Nat)) movies3) 2 0 1,
        0 + 1 * 2⟩ :=
  (resume_offset_checkpoint_invariant Nat f0 2 movies3 ⟨[], 0⟩ 0 (by decide)).1

/-- C3 counterexample: after the failed run over `movies13` (provider
threw on the batch starting at offset 10, records "10"-"12"), a
subsequent run with an always-succeeding provider does not re-attempt
that batch: although 3 unprocessed records remain, the re-run returns
unchanged (it slices the 3-record remainder from offset 10) and the
failing batch's identifiers stay absent forever. -/
theorem batch_retry_counterexample :
    (generateEmbeddings BATCH_SIZE embedFailOn10 movies13 (⟨[], 0⟩ : PState Nat)).2 =
      RunResult.failure firstRunStateC1 ∧
    (filterUnprocessedMovies firstRunStateC1.embeddings movies13).length = 3 ∧
    (generateEmbeddings BATCH_SIZE embedOkNat movies13 firstRunStateC1).2 =
      RunResult.success firstRunStateC1 ∧
    ((firstRunStateC1.embeddings.map (fun e => e.movie.ID)).contains "10") = false := by
  decide

/-- C3 (amended): if the provider call for batch B throws, the state
persisted before the run stops contains exactly the EnrichedRecords of
every batch before B and none of B's — it equals the completion state of
the loop run over only the records before B — its resume offset equals
B's start index in the current run's filtered record sequence (so no
batch is marked complete unless it fully succeeded), and it is the last
state saved.  (A subsequent run however slices the re-filtered sequence
from that offset and therefore skips, rather than re-attempts, B.) -/
theorem at_most_one_batch_loss (E : Type) (bs : Nat) (hbs : 0 < bs)
    (embed : List String → Option (List E)) (movies : List Movie) (st0 : PState E)
    (cps : List (PState E)) (st : PState E)
    (h : generateEmbeddings bs embed movies st0 = (cps, RunResult.failure st)) :
    st0.lastProcessedIndex ≤ st.lastProcessedIndex ∧
    st.lastProcessedIndex < (filterUnprocessedMovies st0.embeddings movies).length ∧
    embed (textsOfBatch (batchAt (filterUnprocessedMovies st0.embeddings movies) bs
        st.lastProcessedIndex)) = none ∧
    cps.getLast? = some st ∧
    (processLoop bs embed
        ((filterUnprocessedMovies st0.embeddings movies).take st.lastProcessedIndex)
        ((filterUnprocessedMovies st0.embeddings movies).length + 1)
        st0.lastProcessedIndex st0.embeddings).2 =
      RunResult.success ⟨st.embeddings, st.lastProcessedIndex⟩ := by
  have h2 : processLoop bs embed (filterUnprocessedMovies st0.embeddings movies)
      ((filterUnprocessedMovies st0.embeddings movies).length + 1)
      st0.lastProcessedIndex st0.embeddings = (cps, RunResult.failure st) := by
    simpa [generateEmbeddings] using h
  exact processLoop_failure_spec bs hbs embed
    (filterUnprocessedMovies st0.embeddings movies) _ _ _ _ _ h2

/-- C3 witness: the amended property instantiated at the concrete failed
run over `movies13` (batch size 10, provider throwing on the second
batch). -/
theorem at_most_one_batch_loss_witness :
    (0 : Nat) < BATCH_SIZE ∧
    generateEmbeddings BATCH_SIZE embedFailOn10 movies13 (⟨[], 0⟩ : PState Nat) =
      ((generateEmbeddings BATCH_SIZE embedFailOn10 movies13 (⟨[], 0⟩ : PState Nat)).1,
        RunResult.failure firstRunStateC1) ∧
    ((0 : Nat) ≤ firstRunStateC1.lastProcessedIndex ∧
     firstRunStateC1.lastProcessedIndex <
        (filterUnprocessedMovies ([] : List (EnrichedMovie Nat)) movies13).length ∧
     embedFailOn10 (textsOfBatch (batchAt
        (filterUnprocessedMovies ([] : List (EnrichedMovie Nat)) movies13) BATCH_SIZE
        firstRunStateC1.lastProcessedIndex)) = none ∧
     ((generateEmbeddings BATCH_SIZE embedFailOn10 movies13 (⟨[], 0⟩ : PState Nat)).1).getLast? =
        some firstRunStateC1 ∧
     (processLoop BATCH_SIZE embedFailOn10
        ((filterUnprocessedMovies ([] : List (EnrichedMovie Nat)) movies13).take
          firstRunStateC1.lastProcessedIndex)
        ((filterUnprocessedMovies ([] : List (EnrichedMovie Nat)) movies13).length + 1)
        0 ([] : List (EnrichedMovie Nat))).2 =
      RunResult.success ⟨firstRunStateC1.embeddings, firstRunStateC1.lastProcessedIndex⟩) := by
  refine ⟨by decide, by decide, ?_⟩
  exact at_most_one_batch_loss Nat BATCH_SIZE (by decide) embedFailOn10 movies13
    ⟨[], 0⟩ (generateEmbeddings BATCH_SIZE embedFailOn10 movies13 ⟨[], 0⟩).1
    firstRunStateC1 (by decide)

/-- C4: order preservation of the zip-back.  For every batch and every
record position `j`, the record's title occupies slot `titlePos batch j`
of the submitted flat text list and its description the next slot; the
`j`-th zipped record is the zip of that record at exactly that cursor, so
its `title_embedding` is the provider output at the title's submitted
position, its `description_embedding` the output at the next position,
and — when Wikipedia content is present — the summary and key-section
embeddings are the outputs at the positions the summary and section texts
occupied, never an output submitted for a neighbouring record. -/
theorem order_preserving_zip (E : Type) (batch : List Movie) (out : List E)
    (j : Nat) (hj : j < batch.length) :
    (textsOfBatch batch)[titlePos batch j]? = some (batch.get ⟨j, hj⟩).title ∧
    (textsOfBatch batch)[titlePos batch j + 1]? = some (batch.get ⟨j, hj⟩).description ∧
    (zipBatch out 0 batch)[j]? =
      some ((zipMovie out (titlePos batch j) (batch.get ⟨j, hj⟩)).1) ∧
    ((zipMovie out (titlePos batch j) (batch.get ⟨j, hj⟩)).1).title_embedding =
      out[titlePos batch j]? ∧
    ((zipMovie out (titlePos batch j) (batch.get ⟨j, hj⟩)).1).description_embedding =
      out[titlePos batch j + 1]? ∧
    (∀ summary secs, wikiContent (batch.get ⟨j, hj⟩) = some (summary, secs) →
      (textsOfBatch batch)[titlePos batch j + 2]? =
        some ("Wikipedia Summary: " ++ summary) ∧
      ((zipMovie out (titlePos batch j) (batch.get ⟨j, hj⟩)).1).wikipedia_summary_embedding =
        out[titlePos batch j + 2]? ∧
      ∀ ks, keySection secs = some ks →
        (textsOfBatch batch)[titlePos batch j + 3]? = some (sectionText ks) ∧
        ((zipMovie out (titlePos batch j) (batch.get ⟨j, hj⟩)).1).wikipedia_section_embedding =
          out[titlePos batch j + 3]? ∧
        ((zipMovie out (titlePos batch j) (batch.get ⟨j, hj⟩)).1).wikipedia_section_title =
          some ks.title) := by
  refine ⟨?_, ?_, ?_, ?_, ?_, ?_⟩
  · have h := textsOfBatch_getElem batch j hj 0 (by simp [textsOfMovie])
    simpa [textsOfMovie] using h
  · have h := textsOfBatch_getElem batch j hj 1 (by simp [textsOfMovie])
    simpa [textsOfMovie] using h
  · have h := zipBatch_getElem out batch j 0 hj
    simpa [titlePos] using h
  · exact (zipMovie_fields out (titlePos batch j) (batch.get ⟨j, hj⟩)).2.1
  · exact (zipMovie_fields out (titlePos batch j) (batch.get ⟨j, hj⟩)).2.2.1
  · intro summary secs hw
    have hw2 : wikiContent batch[j] = some (summary, secs) := by
      rw [List.get_eq_getElem] at hw
      exact hw
    refine ⟨?_, ?_, ?_⟩
    · have h := textsOfBatch_getElem batch j hj 2 (by simp [textsOfMovie, hw2])
      simpa [textsOfMovie, hw2] using h
    · exact (((zipMovie_fields out (titlePos batch j) (batch.get ⟨j, hj⟩)).2.2.2)
        summary secs hw).1
    · intro ks hks
      refine ⟨?_, ?_, ?_⟩
      · have h := textsOfBatch_getElem batch j hj 3 (by simp [textsOfMovie, hw2, hks])
        simpa [textsOfMovie, hw2, hks] using h
      · exact ((((zipMovie_fields out (titlePos batch j) (batch.get ⟨j, hj⟩)).2.2.2)
          summary secs hw).2 ks hks).1
      · exact ((((zipMovie_fields out (titlePos batch j) (batch.get ⟨j, hj⟩)).2.2.2)
          summary secs hw).2 ks hks).2

/-- A record without Wikipedia content. -/
def mvPlain : Movie :=
  { ID := "a", title := "ta", description := "da", year := "", director := "",
    wikipedia := none }

/-- A record with Wikipedia content whose first section is a plot
section. -/
def mvWiki : Movie :=
  { ID := "b", title := "tb", description := "db", year := "", director := "",
    wikipedia := some ⟨true, "sum", some [⟨"Plot", "pc"⟩]⟩ }

/-- C4 witness: the order-preservation theorem applied to the concrete
batch `[mvPlain, mvWiki]` and provider output `[10, …, 15]`; the second
record's title sits at submitted position 2 and its `title_embedding` is
the provider output at that position (value 12). -/
theorem order_preserving_zip_witness :
    (textsOfBatch [mvPlain, mvWiki])[2]? = some mvWiki.title ∧
    (zipBatch ([10, 11, 12, 13, 14, 15] : List Nat) 0 [mvPlain, mvWiki])[1]? =
      some ((zipMovie ([10, 11, 12, 13, 14, 15] : List Nat)
        (titlePos [mvPlain, mvWiki] 1) mvWiki).1) ∧
    ((zipMovie ([10, 11, 12, 13, 14, 15] : List Nat)
        (titlePos [mvPlain, mvWiki] 1) mvWiki).1).title_embedding = some 12 := by
  have h := order_preserving_zip Nat [mvPlain, mvWiki]
    ([10, 11, 12, 13, 14, 15] : List Nat) 1 (by decide)
  refine ⟨h.1, h.2.2.1, ?_⟩
  exact h.2.2.2.1.trans (by decide)

/-- C5 counterexample: a failed batch and an unreadable input source are
caught by handlers that only log and save usage stats (src/index.js
lines 665-668 and 670-673), so the process exits with code 0 in both
situations, not with a non-zero code as the claim states. -/
theorem exit_code_counterexample :
    exitCode ExitCase.batchFailure = 0 ∧ exitCode ExitCase.inputReadError = 0 := by
  decide

/-- C5 (amended): the process exits 0 on full completion and exits 1 when
a required credential is missing (provider initialisation failure); but on
an input-read error or a batch failure the error is caught and logged,
usage stats are saved, and the process still exits 0. -/
theorem exit_code_table :
    exitCode ExitCase.fullCompletion = 0 ∧
    exitCode ExitCase.missingCredential = 1 ∧
    exitCode ExitCase.inputReadError = 0 ∧
    exitCode ExitCase.batchFailure = 0 := by
  decide

/-- C6 counterexample: the LM Studio provider's `embed` issues outbound
requests (its connection test, and one request per text) directly via
`axios`, not through `rateLimiter.schedule`, so not every provider
variant's requests go through the shared rate limiter. -/
theorem rate_limiter_counterexample :
    ((embedRequests Provider.lmstudio ["a"]).all (fun r => r.throughLimiter)) = false := by
  decide

/-- C6 (amended): the Nomic, OpenAI and Cohere providers issue exactly one
outbound embed request per `embed` call and route it through the shared
rate limiter, whose configured minimum inter-request interval is 200 ms;
the LM Studio provider bypasses the limiter. -/
theorem rate_limiter_routing (p : Provider) (texts : List String)
    (hp : p ≠ Provider.lmstudio) :
    ((embedRequests p texts).all (fun r => r.throughLimiter)) = true ∧
    (embedRequests p texts).length = 1 ∧
    limiterMinTime = 200 := by
  cases p with
  | lmstudio => exact absurd rfl hp
  | nomic => exact ⟨rfl, rfl, rfl⟩
  | openai => exact ⟨rfl, rfl, rfl⟩
  | cohere => exact ⟨rfl, rfl, rfl⟩

/-- C6 witness: the routing property at the Nomic provider with one
text. -/
theorem rate_limiter_routing_witness :
    ((embedRequests Provider.nomic ["a"]).all (fun r => r.throughLimiter)) = true ∧
    (embedRequests Provider.nomic ["a"]).length = 1 ∧
    limiterMinTime = 200 :=
  rate_limiter_routing Provider.nomic ["a"] (by decide)

/-- C7: format round-trip.  Writing the record sequence in the ndjson
format (one value per line, no offset field) and reading the lines back
one by one reconstructs the same sequence, field for field, as writing the
single-document json form and reading its `embeddings` field back — both
equal the original sequence, for every record sequence and offset. -/
theorem format_round_trip (embeddings : List Json) (lastProcessedIndex : Nat) :
    readNdjson (saveProgressNdjson embeddings) = embeddings ∧
    readJsonEmbeddings (saveProgressJson embeddings lastProcessedIndex) = embeddings ∧
    readNdjson (saveProgressNdjson embeddings) =
      readJsonEmbeddings (saveProgressJson embeddings lastProcessedIndex) := by
  have h1 : readNdjson (saveProgressNdjson embeddings) = embeddings := by
    simp [readNdjson, saveProgressNdjson]
  have h2 : readJsonEmbeddings (saveProgressJson embeddings lastProcessedIndex) =
      embeddings := rfl
  exact ⟨h1, h2, h1.trans h2.symm⟩

/-- C8: loading progress never aborts the run.  Whenever the progress file
is absent and the snapshot download fails, or the file contents fail to
parse, `loadExistingEmbeddings` yields the empty state (no embeddings,
offset 0) instead of raising. -/
theorem load_progress_fallback (A : Type) (fileExists downloadOk : Bool)
    (parsed : Option (SavedData A))
    (h : (fileExists = false ∧ downloadOk = false) ∨ parsed = none) :
    loadExistingEmbeddings A fileExists downloadOk parsed = ⟨[], 0⟩ := by
  unfold loadExistingEmbeddings
  rcases h with ⟨h1, h2⟩ | h3
  · subst h1; subst h2; simp
  · subst h3
    cases fileExists <;> cases downloadOk <;> simp

/-- C8 witness: a missing file together with a failed download falls back
to the empty state even though a stale parse result carries data. -/
theorem load_progress_fallback_witness :
    loadExistingEmbeddings Nat false false (some ⟨some [5], some 7⟩) = ⟨[], 0⟩ :=
  load_progress_fallback Nat false false (some ⟨some [5], some 7⟩) (Or.inl ⟨rfl, rfl⟩)

/-- Inserting under a key makes the lookup of that key return the inserted
value. -/
theorem cacheLookup_insert_self (cache : List (String × WikiSearchResult))
    (k : String) (v : WikiSearchResult) :
    cacheLookup (cacheInsert cache k v) k = some v := by
  simp [cacheLookup, cacheInsert, List.find?]

/-- C9: once a Wikipedia search completes — matched or not — its result is
stored in the cache under the key `title_year_director`, so the key maps
to the returned result, and any later call for a movie with the same
title, year and director returns that cached result (negative results
included) with no new Wikipedia query issued. -/
theorem wikipedia_cache_complete (cache : List (String × WikiSearchResult))
    (m : Movie) (outcome : SearchOutcome)
    (h : outcome.isErrored = false) :
    cacheKey m = m.title ++ "_" ++ m.year ++ "_" ++ m.director ∧
    cacheLookup (searchMovieWikipedia cache m outcome).2.1 (cacheKey m) =
      some (searchMovieWikipedia cache m outcome).1 ∧
    ∀ (m2 : Movie) (outcome2 : SearchOutcome), cacheKey m2 = cacheKey m →
      searchMovieWikipedia (searchMovieWikipedia cache m outcome).2.1 m2 outcome2 =
        ((searchMovieWikipedia cache m outcome).1,
          (searchMovieWikipedia cache m outcome).2.1, false) := by
  refine ⟨rfl, ?_, ?_⟩
  · cases hc : cacheLookup cache (cacheKey m) with
    | some r => simp [searchMovieWikipedia, hc]
    | none =>
        cases outcome with
        | matched articleTitle url summary searchTerm confidence =>
            simp [searchMovieWikipedia, hc, cacheLookup_insert_self]
        | noMatch =>
            simp [searchMovieWikipedia, hc, cacheLookup_insert_self]
        | errored msg => simp [SearchOutcome.isErrored] at h
  · intro m2 outcome2 hkey
    cases hc : cacheLookup cache (cacheKey m) with
    | some r =>
        simp only [searchMovieWikipedia, hc, hkey]
    | none =>
        cases outcome with
        | matched articleTitle url summary searchTerm confidence =>
            simp only [searchMovieWikipedia, hc, hkey, cacheLookup_insert_self]
        | noMatch =>
            simp only [searchMovieWikipedia, hc, hkey, cacheLookup_insert_self]
        | errored msg => simp [SearchOutcome.isErrored] at h

/-- C9 witness: a completed no-match search on the empty cache stores and
then serves the negative result without a second query. -/
theorem wikipedia_cache_complete_witness :
    cacheKey mvPlain = mvPlain.title ++ "_" ++ mvPlain.year ++ "_" ++ mvPlain.director ∧
    cacheLookup (searchMovieWikipedia [] mvPlain SearchOutcome.noMatch).2.1 (cacheKey mvPlain) =
      some (searchMovieWikipedia [] mvPlain SearchOutcome.noMatch).1 ∧
    ∀ (m2 : Movie) (outcome2 : SearchOutcome), cacheKey m2 = cacheKey mvPlain →
      searchMovieWikipedia (searchMovieWikipedia [] mvPlain SearchOutcome.noMatch).2.1 m2 outcome2 =
        ((searchMovieWikipedia [] mvPlain SearchOutcome.noMatch).1,
          (searchMovieWikipedia [] mvPlain SearchOutcome.noMatch).2.1, false) :=
  wikipedia_cache_complete [] mvPlain SearchOutcome.noMatch (by decide)

/-- C10: for the Nomic, LM Studio and Cohere providers the usage block is
computed locally: whatever usage the upstream response reports, for a
non-empty text list both `prompt_tokens` and `total_tokens` equal the sum
over the input texts of `ceil(length / 4)`, i.e. `(length + 3) / 4`. -/
theorem local_usage_estimate (p : Provider) (texts : List String)
    (upstream : Option Usage) (hne : texts ≠ [])
    (hp : p = Provider.nomic ∨ p = Provider.lmstudio ∨ p = Provider.cohere) :
    embedUsage p texts upstream =
      some ⟨(texts.map (fun text => (text.length + 3) / 4)).sum,
            (texts.map (fun text => (text.length + 3) / 4)).sum⟩ := by
  rcases hp with h | h | h <;> subst h <;>
    simp [embedUsage, tokenEstimate_eq_sum]

/-- C10 witness: the Nomic provider reports 2 tokens for the 5-character
text "abcde" regardless of an upstream-reported usage of 99. -/
theorem local_usage_estimate_witness :
    embedUsage Provider.nomic ["abcde"] (some ⟨99, 99⟩) =
      some ⟨((["abcde"] : List String).map (fun text => (text.length + 3) / 4)).sum,
            ((["abcde"] : List String).map (fun text => (text.length + 3) / 4)).sum⟩ :=
  local_usage_estimate Provider.nomic ["abcde"] (some ⟨99, 99⟩) (by decide) (Or.inl rfl)
